import Mathlib

/-!
Verification development for the retrieval-and-orchestration pipeline of a
RAG restaurant chatbot.  The Python sources (`src/rag/retriever.py`,
`src/rag/generator.py`, `src/rag/rag_chatbot.py`) are shallowly embedded:
dictionaries become association lists, exceptions become `Except`, the
opaque embedding model plus FAISS index become an uninterpreted search
function, and the opaque language model becomes an uninterpreted
`String → String` function.
-/

/-- Python runtime errors that the embedded code can raise. -/
inductive PErr where
  | keyError
  | indexError
deriving Repr, DecidableEq

/-- A Python `dict[str, str]` (document metadata). -/
abbrev Metadata := List (String × String)

/-- `m.get(k)`: first binding of `k`, if any. -/
def mget (m : Metadata) (k : String) : Option String :=
  (m.find? (fun p => p.1 == k)).map (fun p => p.2)

/-- Python truthiness of `m.get(k)`: present and non-empty. -/
def mtruthy (m : Metadata) (k : String) : Bool :=
  match mget m k with
  | some v => v ≠ ""
  | none => false

/-- `m[k]`: raises `KeyError` when the key is absent. -/
def mIndex (m : Metadata) (k : String) : Except PErr String :=
  match mget m k with
  | some v => .ok v
  | none => .error .keyError

/-- Python list indexing with an integer (negative indices count from the
end; out-of-range raises `IndexError`). -/
def pyIndex {α : Type} (l : List α) (i : Int) : Except PErr α :=
  let n : Int := l.length
  let j : Int := if i < 0 then i + n else i
  if h : 0 ≤ j ∧ j < n then
    .ok (l.get ⟨j.toNat, by
      have h2 := h.2
      omega⟩)
  else .error .indexError

/-- `str.lower()` (ASCII case folding, as used on the ASCII data here). -/
def pyLower (s : String) : String := ⟨s.data.map (fun c => c.toLower)⟩

/-- Python `needle in hay` on strings: contiguous substring test. -/
def containsSub (hay needle : String) : Bool :=
  decide (needle.data <:+: hay.data)

/-- `str.split()` with no argument: split on whitespace runs, no empties. -/
def pySplitAux : List Char → List Char → List String
  | [], acc => if acc.isEmpty then [] else [⟨acc.reverse⟩]
  | c :: cs, acc =>
      if c.isWhitespace then
        if acc.isEmpty then pySplitAux cs []
        else ⟨acc.reverse⟩ :: pySplitAux cs []
      else pySplitAux cs (c :: acc)

def pySplit (s : String) : List String := pySplitAux s.data []

/-- `str.strip()`: drop leading and trailing whitespace. -/
def pyStrip (s : String) : String :=
  ⟨((s.data.dropWhile (fun c => c.isWhitespace)).reverse.dropWhile
      (fun c => c.isWhitespace)).reverse⟩

/-- `str.capitalize()`: first char upper-cased, rest lower-cased. -/
def pyCapitalize (s : String) : String :=
  match s.data with
  | [] => ""
  | c :: cs => ⟨c.toUpper :: (cs.map (fun d => d.toLower))⟩

/-- Python string `a <= b` (code-point lexicographic), used by `sorted`
on the tuple key: lists of characters compare lexicographically. -/
def strLe (a b : String) : Bool := decide (a.data ≤ b.data)

/-- A record of `documents.json`: id, type tag, content and metadata. -/
structure Doc where
  id : String
  type : String
  content : String
  metadata : Metadata
deriving Repr, DecidableEq

/-- The artifacts loaded by `DocumentRetriever.__init__`: the row-aligned
id list, the id → metadata mapping, and the full document records. -/
structure Store where
  document_ids : List String
  document_metadata : List (String × Metadata)
  documents : List Doc
deriving Repr

/-- A retrieval result entry (`{id, score, content, metadata, type}`). -/
structure RDoc where
  id : String
  score : ℚ
  content : String
  metadata : Metadata
  type : String
deriving Repr, DecidableEq

/-- The retriever: the loaded store together with the composition of
`query_to_embedding` and `index.search`, treated as an opaque function
from a query string and a count to a list of (distance, row) pairs
(row `-1` marks a padding entry, as FAISS produces). -/
structure Retriever where
  store : Store
  indexSearch : String → Nat → List (ℚ × Int)

/-- Dict lookup `self.document_metadata[doc_id]`. -/
def dictIndex (m : List (String × Metadata)) (k : String) : Except PErr Metadata :=
  match m.find? (fun p => p.1 == k) with
  | some p => .ok p.2
  | none => .error .keyError

/-- The result-extraction loop of `retrieve_documents`: for each
`(distance, idx)` with `idx ≠ -1`, look up the id (IndexError possible),
the metadata (KeyError possible), and the full document; entries whose
id is absent from the document list are silently skipped. -/
def retrieveAux (st : Store) : List (ℚ × Int) → Except PErr (List RDoc)
  | [] => .ok []
  | (dist, idx) :: rest =>
    if idx == -1 then retrieveAux st rest
    else do
      let docId ← pyIndex st.document_ids idx
      let metadata ← dictIndex st.document_metadata docId
      let doc? := st.documents.find? (fun d => d.id == docId)
      let tail ← retrieveAux st rest
      match doc? with
      | some d =>
          .ok ({ id := docId, score := 1 / (1 + dist), content := d.content,
                 metadata := metadata, type := d.type } :: tail)
      | none => .ok tail

/-- `DocumentRetriever.retrieve_documents(query, top_k)`. -/
def retrieve_documents (r : Retriever) (query : String) (top_k : Nat) :
    Except PErr (List RDoc) :=
  retrieveAux r.store (r.indexSearch query top_k)

/-- The filter predicate of `search_by_restaurant`, with Python's
short-circuit evaluation (metadata access can raise `KeyError`). -/
def restMatch (restaurant_name : String) (d : RDoc) : Except PErr Bool :=
  if d.type == "restaurant" then do
    let v ← mIndex d.metadata ("name")
    .ok (pyLower v == pyLower restaurant_name)
  else if d.type == "menu_item" then do
    let v ← mIndex d.metadata ("restaurant")
    .ok (pyLower v == pyLower restaurant_name)
  else .ok false

/-- A list comprehension with a possibly-raising predicate. -/
def exceptFilter {α : Type} (p : α → Except PErr Bool) :
    List α → Except PErr (List α)
  | [] => .ok []
  | a :: as_ => do
      let b ← p a
      let rest ← exceptFilter p as_
      .ok (if b then a :: rest else rest)

/-- `DocumentRetriever.search_by_restaurant(restaurant_name, top_k=10)`. -/
def search_by_restaurant (r : Retriever) (restaurant_name : String)
    (top_k : Nat) : Except PErr (List RDoc) := do
  let query := "Information about restaurant " ++ restaurant_name
  let results ← retrieve_documents r query top_k
  exceptFilter (restMatch restaurant_name) results

/-- `DocumentRetriever.search_menu_items(query, top_k=10)`. -/
def search_menu_items (r : Retriever) (query : String) (top_k : Nat) :
    Except PErr (List RDoc) := do
  let menu_query := "Menu item " ++ query
  let results ← retrieve_documents r menu_query (top_k * 2)
  let menu_items := results.filter (fun d => d.type == "menu_item")
  .ok (menu_items.take top_k)

/-- The dietary filter of `search_dietary_options` (the `in`-guard makes
it total). -/
def dietMatch (dietary_preference : String) (d : RDoc) : Bool :=
  d.type == "menu_item" &&
    (match mget d.metadata ("dietary_info") with
     | some v => containsSub (pyLower v) (pyLower dietary_preference)
     | none => false)

/-- `DocumentRetriever.search_dietary_options(dietary_preference, top_k=10)`. -/
def search_dietary_options (r : Retriever) (dietary_preference : String)
    (top_k : Nat) : Except PErr (List RDoc) := do
  let dietary_query :=
    "Menu items with " ++ dietary_preference ++ " dietary preference"
  let results ← retrieve_documents r dietary_query (top_k * 3)
  let filtered_results := results.filter (dietMatch dietary_preference)
  .ok (filtered_results.take top_k)

/-- The stopword set of `retrieve_with_fallback`. -/
def stopwords : List String :=
  ["the", "a", "an", "in", "on", "at", "of", "for", "with", "about",
   "restaurant", "food", "menu"]

/-- The under-return branch of `retrieve_with_fallback`: strip
stopwords from the lowercased query tokens, re-retrieve on the
remaining terms (skipped entirely when none remain), and append only
documents whose id is not already present.  The set of already-present
ids is computed once, before supplemental results are appended,
exactly as in the source. -/
def fallbackExtend (r : Retriever) (query : String) (top_k : Nat)
    (results : List RDoc) : Except PErr (List RDoc) :=
  let terms := pySplit (pyLower query)
  let key_terms := terms.filter (fun t => ¬ stopwords.contains t)
  if key_terms.isEmpty then pure results
  else do
    let simplified_query := String.intercalate (" ") key_terms
    let additional_results ←
      retrieve_documents r simplified_query (top_k - results.length)
    let existing_ids := results.map (fun d => d.id)
    pure (results ++
      additional_results.filter (fun d => ¬ existing_ids.contains d.id))

/-- `DocumentRetriever.retrieve_with_fallback(query, top_k=5)`. -/
def retrieve_with_fallback (r : Retriever) (query : String) (top_k : Nat) :
    Except PErr (List RDoc) := do
  let results ← retrieve_documents r query top_k
  let results ←
    if results.length < top_k then fallbackExtend r query top_k results
    else pure results
  pure (results.take top_k)

/-! ## Generator (`src/rag/generator.py`) -/

/-- Comparison on Python sort keys `(-score, type)`: `a` may stay before
`b` exactly when its key is less-or-equal. -/
def docKeyLe (a b : RDoc) : Bool :=
  decide (b.score < a.score) || (decide (a.score = b.score) && strLe a.type b.type)

/-- Insert into an already-sorted list after all entries that may stay
before the new element (the placement a stable sort produces). -/
def insertStable {α : Type} (le : α → α → Bool) (a : α) : List α → List α
  | [] => [a]
  | b :: bs => if le b a then b :: insertStable le a bs else a :: b :: bs

/-- Python's `sorted(l, key=...)`: a stable ascending sort. -/
def pySorted {α : Type} (le : α → α → Bool) (l : List α) : List α :=
  l.foldl (fun acc a => insertStable le a acc) []

/-- `sorted(documents, key=lambda x: (-x["score"], x["type"]))`. -/
def sort_documents (documents : List RDoc) : List RDoc :=
  pySorted docKeyLe documents

/-- Render one restaurant document into its context lines.  `name` (and
`city`/`state` once `address` is truthy) are accessed unconditionally
and can raise `KeyError`; the guarded fields are omitted when absent or
empty. -/
def renderRestaurant (m : Metadata) : Except PErr (List String) := do
  let name ← mIndex m ("name")
  let p0 := ["Restaurant Information - " ++ name ++ ":"]
  let p1 ←
    if mtruthy m ("address") then do
      let a ← mIndex m ("address")
      let c ← mIndex m ("city")
      let s ← mIndex m ("state")
      .ok (["Address: " ++ a ++ ", " ++ c ++ ", " ++ s])
    else .ok []
  let p2 := if mtruthy m ("hours") then
      ["Hours: " ++ (mget m ("hours")).getD ("")] else []
  let p3 := if mtruthy m ("special_features") then
      ["Special Features: " ++ (mget m ("special_features")).getD ("")] else []
  let p4 := if mtruthy m ("phone") then
      ["Contact: " ++ (mget m ("phone")).getD ("")] else []
  .ok (p0 ++ p1 ++ p2 ++ p3 ++ p4 ++ [""])

/-- Render one menu-item document; `restaurant` and `name` are accessed
unconditionally and can raise `KeyError`. -/
def renderMenuItem (m : Metadata) : Except PErr (List String) := do
  let rest ← mIndex m ("restaurant")
  let name ← mIndex m ("name")
  let p0 := ["Menu Item - " ++ rest ++ " - " ++ name ++ ":"]
  let p1 := if mtruthy m ("price") then
      ["Price: " ++ (mget m ("price")).getD ("")] else []
  let p2 := if mtruthy m ("description") then
      ["Description: " ++ (mget m ("description")).getD ("")] else []
  let p3 := if mtruthy m ("section") then
      ["Section: " ++ (mget m ("section")).getD ("")] else []
  let p4 := if mtruthy m ("dietary_info") then
      ["Dietary Info: " ++ (mget m ("dietary_info")).getD ("")] else []
  .ok (p0 ++ p1 ++ p2 ++ p3 ++ p4 ++ [""])

/-- The per-document branch of the context loop; unknown types add no
lines. -/
def renderDoc (d : RDoc) : Except PErr (List String) :=
  if d.type == "restaurant" then renderRestaurant d.metadata
  else if d.type == "menu_item" then renderMenuItem d.metadata
  else .ok []

/-- `ResponseGenerator.format_documents_for_prompt(documents)`. -/
def format_documents_for_prompt (documents : List RDoc) :
    Except PErr String :=
  if documents.isEmpty then .ok ("No relevant information found.")
  else do
    let sorted_docs := sort_documents documents
    let parts ← sorted_docs.mapM renderDoc
    .ok (String.intercalate ("\n") parts.flatten)

/-- A chat message `{role, content}`. -/
structure Msg where
  role : String
  content : String
deriving Repr, DecidableEq

/-- The `Previous Conversation:` block of `create_prompt` (empty when
the history is empty; otherwise the last three messages). -/
def history_text (chat_history : List Msg) : String :=
  if chat_history.isEmpty then ("")
  else
    let recent := chat_history.drop (chat_history.length - 3)
    let parts := recent.map (fun m => pyCapitalize m.role ++ ": " ++ m.content)
    "\nPrevious Conversation:\n" ++ String.intercalate ("\n") parts

/-- `ResponseGenerator.create_prompt(query, documents, chat_history)`. -/
def create_prompt (query : String) (documents : List RDoc)
    (chat_history : List Msg) : Except PErr String := do
  let context ← format_documents_for_prompt documents
  .ok ("Based on the following information about restaurants and their menus, \n" ++
    "please answer the query accurately and helpfully.\n\nContext Information:\n" ++
    context ++ "\n" ++ history_text chat_history ++
    "\n\nQuery: " ++ query ++ "\n\nAnswer:")

/-- Drop a leading whitespace run. -/
def dropLeadingWs (s : String) : String :=
  ⟨s.data.dropWhile (fun c => c.isWhitespace)⟩

/-- `ResponseGenerator._clean_response`: strip a leading `Answer:` echo,
collapse whitespace runs to single spaces, strip the ends. -/
def clean_response (response : String) : String :=
  let r1 := if ("Answer:").data.isPrefixOf response.data then
      dropLeadingWs ⟨response.data.drop 7⟩ else response
  String.intercalate (" ") (pySplit r1)

/-- The opaque language model behind `ResponseGenerator`. -/
structure Generator where
  generate : String → String

/-- `ResponseGenerator.generate_response(prompt)`. -/
def generate_response (g : Generator) (prompt : String) : String :=
  clean_response (g.generate prompt)

/-- `ResponseGenerator.answer_query(query, documents, chat_history)`. -/
def answer_query (g : Generator) (query : String) (documents : List RDoc)
    (chat_history : List Msg) : Except PErr String := do
  let prompt ← create_prompt query documents chat_history
  .ok (generate_response g prompt)

/-- The fallback prompt of `ResponseGenerator.handle_no_results`. -/
def no_results_prompt (query : String) : String :=
  "I don\x27t have specific information about that in my restaurant database. \n" ++
  "However, I can try to give a general response.\n\nQuery: " ++ query ++
  "\n\nAnswer:"

/-- `ResponseGenerator.handle_no_results(query)`. -/
def handle_no_results (g : Generator) (query : String) : String :=
  generate_response g (no_results_prompt query)

/-- One `- name (price) - dietary_info` line of the comparison context;
`name` is accessed unconditionally and can raise `KeyError`. -/
def comparisonItemLine (item : RDoc) : Except PErr String := do
  let n ← mIndex item.metadata ("name")
  let t1 := "- " ++ n
  let t2 := if mtruthy item.metadata ("price") then
      t1 ++ " (" ++ (mget item.metadata ("price")).getD ("") ++ ")" else t1
  let t3 := if mtruthy item.metadata ("dietary_info") then
      t2 ++ " - " ++ (mget item.metadata ("dietary_info")).getD ("") else t2
  .ok t3

/-- The per-restaurant block of `generate_comparison`. -/
def comparisonBlock (p : String × List RDoc) : Except PErr (List String) := do
  let hdr := "\n--- " ++ p.1 ++ " ---"
  let rinfo := p.2.filter (fun d => d.type == "restaurant")
  let sf : List String :=
    match rinfo with
    | [] => []
    | d :: _ =>
        if mtruthy d.metadata ("special_features") then
          ["Special Features: " ++ (mget d.metadata ("special_features")).getD ("")]
        else []
  let mitems := p.2.filter (fun d => d.type == "menu_item")
  let lines ← (mitems.take 5).mapM comparisonItemLine
  let mlines := if mitems.isEmpty then [] else ("Menu Items:") :: lines
  .ok (hdr :: (sf ++ mlines))

/-- The space-joined context of `generate_comparison`. -/
def comparison_context (restaurant_docs : List (String × List RDoc)) :
    Except PErr String := do
  let blocks ← restaurant_docs.mapM comparisonBlock
  .ok (String.intercalate (" ")
    ("Here is information about the restaurants you want to compare:" ::
      blocks.flatten))

/-- The comparison prompt, built from the query and the retrieved
per-restaurant documents only. -/
def comparison_prompt (query : String) (ctx : String) : String :=
  "Based on the following information about multiple restaurants,\n" ++
  "please provide a comparison addressing this query.\n\n" ++ ctx ++
  "\n\nQuery for comparison: " ++ query ++ "\n\nDetailed comparison:"

/-- `ResponseGenerator.generate_comparison(query, restaurant_docs)`. -/
def generate_comparison (g : Generator) (query : String)
    (restaurant_docs : List (String × List RDoc)) : Except PErr String := do
  let ctx ← comparison_context restaurant_docs
  .ok (generate_response g (comparison_prompt query ctx))

/-! ## Intent classification (`RAGChatbot._detect_intent`) -/

/-- Character class `[a-zA-Z\s]` of the `between X and Y` pattern. -/
def isClassChar (c : Char) : Bool := c.isAlpha || c.isWhitespace

/-- Tail of the pattern after the literal `and`: `\s+` then a greedy
`[a-zA-Z\s]+` group, with the single give-back step the backtracking
engine can take (the group may start on the last whitespace
character). -/
def matchWsThenClass (cs : List Char) : Option (List Char) :=
  let r := (cs.takeWhile (fun c => c.isWhitespace)).length
  let afterMax := cs.drop r
  if r = 0 then none
  else if (afterMax.headD '!').isAlpha then some (afterMax.takeWhile isClassChar)
  else if 2 ≤ r then some ((cs.drop (r - 1)).takeWhile isClassChar)
  else none

/-- `\s+and` then the tail: the whitespace run before the literal `and`
is necessarily maximal because `a` is not whitespace. -/
def matchWsAndTail (cs : List Char) : Option (List Char) :=
  let r := (cs.takeWhile (fun c => c.isWhitespace)).length
  if r = 0 then none
  else
    match cs.drop r with
    | 'a' :: 'n' :: 'd' :: rest2 => matchWsThenClass rest2
    | _ => none

/-- Greedy first group: try lengths from the maximal class run down. -/
def tryG1Len (ds : List Char) : Nat → Option (List Char × List Char)
  | 0 => none
  | n + 1 =>
    match matchWsAndTail (ds.drop (n + 1)) with
    | some g2 => some (ds.take (n + 1), g2)
    | none => tryG1Len ds n

/-- Greedy `\s+` after `between`: try run lengths from the maximum
down, re-running the first-group search at each give-back. -/
def tryWs1 (cs : List Char) : Nat → Option (List Char × List Char)
  | 0 => none
  | k + 1 =>
    let ds := cs.drop (k + 1)
    match tryG1Len ds (ds.takeWhile isClassChar).length with
    | some p => some p
    | none => tryWs1 cs k

def matchAfterBetween (cs : List Char) : Option (List Char × List Char) :=
  tryWs1 cs (cs.takeWhile (fun c => c.isWhitespace)).length

def litBetween : List Char := ['b', 'e', 't', 'w', 'e', 'e', 'n']

/-- Leftmost match of `between\s+([a-zA-Z\s]+)\s+and\s+([a-zA-Z\s]+)`:
scan start positions left to right; the pattern can only start on an
occurrence of the literal `between`. -/
def findBetweenMatch : List Char → Option (List Char × List Char)
  | [] => none
  | c :: cs =>
    if litBetween.isPrefixOf (c :: cs) then
      match matchAfterBetween ((c :: cs).drop 7) with
      | some p => some p
      | none => findBetweenMatch cs
    else findBetweenMatch cs

/-- `re.search(r'between\s+([a-zA-Z\s]+)\s+and\s+([a-zA-Z\s]+)', q)`,
returning the two capture groups. -/
def betweenGroups (query_lower : String) : Option (String × String) :=
  (findBetweenMatch query_lower.data).map (fun p => (⟨p.1⟩, ⟨p.2⟩))

/-- `re.search(r'compare|comparison|versus|vs\.?|difference', q)` seen
as substring presence of any alternative (the optional dot never
affects matchability). -/
def hasComparisonKeyword (lq : String) : Bool :=
  containsSub lq ("compare") || containsSub lq ("comparison") ||
  containsSub lq ("versus") || containsSub lq ("vs") ||
  containsSub lq ("difference")

/-- The known-restaurant scan of the comparison branch: walk all
documents, collect original-case names whose lowering occurs in the
lowered query; the `name` access can raise `KeyError`. -/
def scanRestaurantNames (lq : String) : List Doc → Except PErr (List String)
  | [] => .ok []
  | d :: ds =>
    if d.type == "restaurant" then do
      let name ← mIndex d.metadata ("name")
      let rest ← scanRestaurantNames lq ds
      .ok (if containsSub lq (pyLower name) then name :: rest else rest)
    else scanRestaurantNames lq ds

/-- Restaurant-name extraction of the comparison branch: the `between`
pattern first, the known-name scan otherwise; groups are stripped. -/
def extractComparisonNames (docs : List Doc) (lq : String) :
    Except PErr (List String) :=
  match betweenGroups lq with
  | some (g1, g2) => .ok [pyStrip g1, pyStrip g2]
  | none => scanRestaurantNames lq docs

def dietary_terms : List String :=
  ["vegetarian", "vegan", "gluten-free", "gluten free", "nut-free", "dairy-free"]

/-- First dietary term (in fixed vocabulary order) contained in the
lowered query. -/
def firstDietary (lq : String) : Option String :=
  dietary_terms.find? (fun t => containsSub lq t)

def hasMenuKeyword (lq : String) : Bool :=
  containsSub lq ("menu") || containsSub lq ("item") || containsSub lq ("dish") ||
  containsSub lq ("food") || containsSub lq ("appetizer") ||
  containsSub lq ("entree") || containsSub lq ("dessert")

def hasRestaurantKeyword (lq : String) : Bool :=
  containsSub lq ("restaurant") || containsSub lq ("location") ||
  containsSub lq ("address") || containsSub lq ("hour") ||
  containsSub lq ("contact")

/-- The restaurant-info scan: first restaurant document whose lowered
name occurs in the lowered query. -/
def findRestaurantInfo (lq : String) : List Doc → Except PErr (Option String)
  | [] => .ok none
  | d :: ds =>
    if d.type == "restaurant" then do
      let name ← mIndex d.metadata ("name")
      if containsSub lq (pyLower name) then .ok (some name)
      else findRestaurantInfo lq ds
    else findRestaurantInfo lq ds

inductive Intent where
  | comparison (restaurants : List String)
  | dietary (preference : String)
  | menu_item (query : String)
  | restaurant_info (restaurant : String)
  | generic (query : String)
deriving Repr, DecidableEq

/-- Rules 2-5 of `_detect_intent` (dietary, menu-item,
restaurant-info, generic), reached whenever the comparison rule does
not fire: this is the fall-through target of the comparison branch. -/
def detectIntentRest (docs : List Doc) (query query_lower : String) :
    Except PErr Intent :=
  match firstDietary query_lower with
  | some term => .ok (.dietary term)
  | none =>
    if hasMenuKeyword query_lower then .ok (.menu_item query)
    else if hasRestaurantKeyword query_lower then
      match findRestaurantInfo query_lower docs with
      | .error e => .error e
      | .ok (some name) => .ok (.restaurant_info name)
      | .ok none => .ok (.generic query)
    else .ok (.generic query)

/-- `RAGChatbot._detect_intent(query)`, mirroring the source's control
flow statement by statement: the query is lower-cased once, the
comparison rule is tried first and returns only when at least two
restaurant names were extracted, and otherwise control falls through
to the remaining rules in order. -/
def detect_intent (docs : List Doc) (query : String) : Except PErr Intent :=
  let query_lower := pyLower query
  if hasComparisonKeyword query_lower then
    match extractComparisonNames docs query_lower with
    | .error e => .error e
    | .ok restaurant_names =>
      if 2 ≤ restaurant_names.length then .ok (.comparison restaurant_names)
      else detectIntentRest docs query query_lower
  else detectIntentRest docs query query_lower

/-! ## Orchestrator (`RAGChatbot`) -/

structure Chatbot where
  retriever : Retriever
  generator : Generator
  chat_history : List Msg

/-- `RAGChatbot.add_message_to_history(role, content)`. -/
def add_message_to_history (cb : Chatbot) (role content : String) : Chatbot :=
  { cb with chat_history :=
      cb.chat_history ++ [{ role := role, content := content }] }

/-- `RAGChatbot.clear_chat_history()`. -/
def clear_chat_history (cb : Chatbot) : Chatbot :=
  { cb with chat_history := [] }

/-- Python dict insertion: reassignment keeps the original position,
new keys append. -/
def dictInsert (l : List (String × List RDoc)) (k : String) (v : List RDoc) :
    List (String × List RDoc) :=
  if l.any (fun p => p.1 == k) then
    l.map (fun p => if p.1 == k then (k, v) else p)
  else l ++ [(k, v)]

/-- The comparison branch's `restaurant_docs` dict build-up. -/
def buildRestaurantDocs (r : Retriever) : List String →
    List (String × List RDoc) → Except PErr (List (String × List RDoc))
  | [], acc => .ok acc
  | n :: ns, acc => do
      let docs ← search_by_restaurant r n 10
      buildRestaurantDocs r ns (dictInsert acc n docs)

/-- The dispatch body of `RAGChatbot.answer`, run after the user
message has been appended; `hist` is `self.chat_history` at generator
call time (it already contains the new user message). -/
def answerCore (cb : Chatbot) (q : String) (hist : List Msg) :
    Except PErr String := do
  let intent ← detect_intent cb.retriever.store.documents q
  match intent with
  | .comparison names => do
      let restaurant_docs ← buildRestaurantDocs cb.retriever names []
      generate_comparison cb.generator q restaurant_docs
  | .dietary pref => do
      let documents ← search_dietary_options cb.retriever pref 10
      if documents.isEmpty then
        .ok ("I couldn\x27t find any menu items with " ++ pref ++
             " dietary preference in our database.")
      else answer_query cb.generator q documents hist
  | .menu_item _ => do
      let documents ← search_menu_items cb.retriever q 10
      if documents.isEmpty then do
        let documents ← retrieve_with_fallback cb.retriever q 5
        answer_query cb.generator q documents hist
      else answer_query cb.generator q documents hist
  | .restaurant_info rest => do
      let documents ← search_by_restaurant cb.retriever rest 10
      if documents.isEmpty then
        .ok ("I couldn\x27t find information about " ++ rest ++
             " in our database.")
      else answer_query cb.generator q documents hist
  | .generic _ => do
      let documents ← retrieve_with_fallback cb.retriever q 5
      if documents.isEmpty then .ok (handle_no_results cb.generator q)
      else answer_query cb.generator q documents hist

/-- Outcome handling of `answer`: on success the assistant message is
appended to the state carrying the user message; on a failed turn the
state still records the user message. -/
def answerFinish (cb1 : Chatbot) :
    Except PErr String → Except PErr String × Chatbot
  | .ok resp => (.ok resp, add_message_to_history cb1 ("assistant") resp)
  | .error e => (.error e, cb1)

/-- `RAGChatbot.answer(query)`: the user message is appended first,
then the intent is classified, retrieval and generation run, and the
assistant message is appended on success. -/
def answer (cb : Chatbot) (q : String) : Except PErr String × Chatbot :=
  let cb1 := add_message_to_history cb ("user") q
  answerFinish cb1 (answerCore cb1 q cb1.chat_history)

/-- A session of consecutive `answer` calls; `none` when a turn
raises. -/
def runSession : Chatbot → List String → Option Chatbot
  | cb, [] => some cb
  | cb, q :: qs =>
    match answer cb q with
    | (.ok _, cb1) => runSession cb1 qs
    | (.error _, _) => none

/-! ## Sorting lemmas for the context block -/

lemma insertStable_perm {α : Type} (le : α → α → Bool) (a : α) :
    ∀ l : List α, (insertStable le a l).Perm (a :: l) := by
  intro l
  induction l with
  | nil => simp [insertStable]
  | cons b bs ih =>
    by_cases h : le b a
    · simp only [insertStable, h, if_pos]
      exact (ih.cons b).trans (List.Perm.swap a b bs)
    · simp [insertStable, h]

lemma pySorted_foldl_perm {α : Type} (le : α → α → Bool) :
    ∀ (l acc : List α),
      (l.foldl (fun acc a => insertStable le a acc) acc).Perm (acc ++ l) := by
  intro l
  induction l with
  | nil => intro acc; simp
  | cons x xs ih =>
    intro acc
    have h1 := ih (insertStable le x acc)
    have h2 : (insertStable le x acc ++ xs).Perm (acc ++ x :: xs) := by
      refine ((insertStable_perm le x acc).append_right xs).trans ?_
      exact (List.perm_middle).symm
    exact (List.foldl_cons _ _ ▸ h1).trans h2

lemma pySorted_perm {α : Type} (le : α → α → Bool) (l : List α) :
    (pySorted le l).Perm l := by
  have := pySorted_foldl_perm le l []
  simpa [pySorted] using this

lemma insertStable_mem {α : Type} (le : α → α → Bool) (a x : α) (l : List α) :
    x ∈ insertStable le a l ↔ x = a ∨ x ∈ l := by
  have h := (insertStable_perm le a l).mem_iff (a := x)
  simpa using h

lemma insertStable_pairwise {α : Type} (le : α → α → Bool)
    (htrans : ∀ a b c, le a b = true → le b c = true → le a c = true)
    (htot : ∀ a b, le a b = true ∨ le b a = true) (a : α) :
    ∀ l : List α, l.Pairwise (fun x y => le x y = true) →
      (insertStable le a l).Pairwise (fun x y => le x y = true) := by
  intro l
  induction l with
  | nil => intro _; simp [insertStable]
  | cons b bs ih =>
    intro h
    rw [List.pairwise_cons] at h
    obtain ⟨hb, hbs⟩ := h
    by_cases hba : le b a
    · simp only [insertStable, hba, if_pos]
      rw [List.pairwise_cons]
      refine ⟨?_, ih hbs⟩
      intro x hx
      rcases (insertStable_mem le a x bs).1 hx with rfl | hxbs
      · exact hba
      · exact hb x hxbs
    · simp only [insertStable, hba, if_neg, Bool.not_eq_true]
      have hab : le a b = true := by
        rcases htot a b with h | h
        · exact h
        · exact absurd h (by simpa using hba)
      rw [List.pairwise_cons]
      constructor
      · intro x hx
        rcases List.mem_cons.1 hx with rfl | hxbs
        · exact hab
        · exact htrans a b x hab (hb x hxbs)
      · exact List.pairwise_cons.2 ⟨hb, hbs⟩

lemma pySorted_foldl_pairwise {α : Type} (le : α → α → Bool)
    (htrans : ∀ a b c, le a b = true → le b c = true → le a c = true)
    (htot : ∀ a b, le a b = true ∨ le b a = true) :
    ∀ (l acc : List α), acc.Pairwise (fun x y => le x y = true) →
      (l.foldl (fun acc a => insertStable le a acc) acc).Pairwise
        (fun x y => le x y = true) := by
  intro l
  induction l with
  | nil => intro acc h; simpa using h
  | cons x xs ih =>
    intro acc h
    simpa using ih (insertStable le x acc)
      (insertStable_pairwise le htrans htot x acc h)

lemma pySorted_pairwise {α : Type} (le : α → α → Bool)
    (htrans : ∀ a b c, le a b = true → le b c = true → le a c = true)
    (htot : ∀ a b, le a b = true ∨ le b a = true) (l : List α) :
    (pySorted le l).Pairwise (fun x y => le x y = true) :=
  pySorted_foldl_pairwise le htrans htot l [] (by simp)

lemma docKeyLe_iff (a b : RDoc) :
    docKeyLe a b = true ↔
      b.score < a.score ∨ (a.score = b.score ∧ a.type.data ≤ b.type.data) := by
  simp [docKeyLe, strLe, Bool.or_eq_true, Bool.and_eq_true,
    decide_eq_true_eq]

lemma docKeyLe_trans (a b c : RDoc) :
    docKeyLe a b = true → docKeyLe b c = true → docKeyLe a c = true := by
  intro hab hbc
  rw [docKeyLe_iff] at hab hbc ⊢
  rcases hab with h1 | ⟨h1e, h1t⟩
  · rcases hbc with h2 | ⟨h2e, _⟩
    · exact Or.inl (lt_trans h2 h1)
    · exact Or.inl (h2e ▸ h1)
  · rcases hbc with h2 | ⟨h2e, h2t⟩
    · exact Or.inl (h1e ▸ h2)
    · exact Or.inr ⟨h1e.trans h2e, le_trans h1t h2t⟩

lemma docKeyLe_total (a b : RDoc) :
    docKeyLe a b = true ∨ docKeyLe b a = true := by
  rw [docKeyLe_iff, docKeyLe_iff]
  rcases lt_trichotomy a.score b.score with h | h | h
  · exact Or.inr (Or.inl h)
  · rcases le_total a.type.data b.type.data with ht | ht
    · exact Or.inl (Or.inr ⟨h, ht⟩)
    · exact Or.inr (Or.inr ⟨h.symm, ht⟩)
  · exact Or.inl (Or.inl h)

/-! ## Claim C1: ordering of the prompt context block -/

def rTie : RDoc :=
  { id := "r0", score := 1, content := "", metadata := [("name", "R")],
    type := "restaurant" }

def mTie : RDoc :=
  { id := "m0", score := 1, content := "",
    metadata := [("restaurant", "R"), ("name", "M")], type := "menu_item" }

/-- C1 counterexample: two documents of equal score, one `restaurant`
and one `menu_item`.  The sort key `(-score, type)` orders the type
strings ascending, so the `menu_item` entry comes first in the sorted
list and in the rendered context — the claimed tie-break (restaurant
before menu_item) fails. -/
theorem C1_counterexample :
    rTie.score = mTie.score ∧ rTie.type = "restaurant" ∧
    mTie.type = "menu_item" ∧
    sort_documents [rTie, mTie] = [mTie, rTie] ∧
    format_documents_for_prompt [rTie, mTie] =
      .ok ("Menu Item - R - M:\n\nRestaurant Information - R:\n") := by
  refine ⟨rfl, rfl, rfl, ?_, ?_⟩ <;> rfl

/-- C1 (amended): the context block sorts documents by descending
score, with ties broken by ascending lexicographic type string — hence
among documents of equal score every `menu_item` entry precedes every
`restaurant` entry, not the other way round. -/
theorem C1_context_sort_order (documents : List RDoc) :
    (sort_documents documents).Perm documents ∧
    (sort_documents documents).Pairwise (fun a b =>
      b.score < a.score ∨ (a.score = b.score ∧ a.type.data ≤ b.type.data)) ∧
    (sort_documents documents).Pairwise (fun a b =>
      a.score = b.score → ¬(a.type = "restaurant" ∧ b.type = "menu_item")) := by
  refine ⟨pySorted_perm _ _, ?_, ?_⟩
  · exact (pySorted_pairwise docKeyLe docKeyLe_trans docKeyLe_total
      documents).imp (fun h => (docKeyLe_iff _ _).1 h)
  · refine (pySorted_pairwise docKeyLe docKeyLe_trans docKeyLe_total
      documents).imp ?_
    rintro a b h heq ⟨ha, hb⟩
    rcases (docKeyLe_iff a b).1 h with hlt | ⟨_, ht⟩
    · exact lt_irrefl b.score (heq ▸ hlt)
    · rw [ha, hb] at ht
      exact absurd ht (by decide)

/-! ## Well-formed stores and searches -/

/-- The id stored at an index row (total helper; rows are validated
separately). -/
def rowId (st : Store) (i : Int) : String :=
  (st.document_ids.get? i.toNat).getD ("")

/-- The ids a search-result list refers to, padding rows dropped. -/
def idsOf (st : Store) (l : List (ℚ × Int)) : List String :=
  ((l.map Prod.snd).filter (fun i => ¬ i == -1)).map (rowId st)

/-- Load-time invariants: unique ids, and a metadata entry for every
indexed id. -/
def WFStore (st : Store) : Prop :=
  st.document_ids.Nodup ∧
  ∀ s ∈ st.document_ids,
    (st.document_metadata.find? (fun p => p.1 == s)).isSome = true

/-- Every search row is the `-1` padding or a valid index position. -/
def ValidRows (st : Store) (l : List (ℚ × Int)) : Prop :=
  ∀ p ∈ l, p.2 = -1 ∨ (0 ≤ p.2 ∧ p.2 < (st.document_ids.length : Int))

/-- What FAISS guarantees about one `index.search` call: at most `k`
rows, all valid or padding, and no repeated valid row. -/
def WFSearch (st : Store) (l : List (ℚ × Int)) (k : Nat) : Prop :=
  l.length ≤ k ∧ ValidRows st l ∧
    ((l.map Prod.snd).filter (fun i => ¬ i == -1)).Nodup

/-- A retriever over a well-formed store whose every search is
well-formed. -/
def WFRetriever (r : Retriever) : Prop :=
  WFStore r.store ∧ ∀ q k, WFSearch r.store (r.indexSearch q k) k

lemma retrieveAux_ok (st : Store)
    (hmeta : ∀ s ∈ st.document_ids,
      (st.document_metadata.find? (fun p => p.1 == s)).isSome = true) :
    ∀ l : List (ℚ × Int), ValidRows st l →
      ∃ res, retrieveAux st l = .ok res ∧
        (res.map RDoc.id).Sublist (idsOf st l) := by
  intro l
  induction l with
  | nil => intro _; exact ⟨[], rfl, by simp [idsOf]⟩
  | cons p rest ih =>
    intro hv
    obtain ⟨dist, idx⟩ := p
    have hhead := hv (dist, idx) (List.mem_cons_self _ _)
    obtain ⟨res', hres', hsub'⟩ := ih (fun q hq => hv q (List.mem_cons_of_mem _ hq))
    by_cases hneg : idx = -1
    · subst hneg
      refine ⟨res', ?_, ?_⟩
      · simpa [retrieveAux] using hres'
      · simpa [idsOf] using hsub'
    · simp only [hneg, false_or] at hhead
      obtain ⟨h0, hlt⟩ := hhead
      have hne : (idx == -1) = false := by
        simp [hneg]
      have hltn : idx.toNat < st.document_ids.length := by
        omega
      have hget : pyIndex st.document_ids idx =
          .ok (st.document_ids.get ⟨idx.toNat, hltn⟩) := by
        have hnn : ¬ idx < 0 := not_lt.2 h0
        simp only [pyIndex, hnn, if_false]
        rw [dif_pos ⟨h0, hlt⟩]
      have hrow : st.document_ids.get ⟨idx.toNat, hltn⟩ = rowId st idx := by
        unfold rowId
        rw [List.get?_eq_get hltn, Option.getD_some]
      have hmem : st.document_ids.get ⟨idx.toNat, hltn⟩ ∈ st.document_ids :=
        List.get_mem _ _ _
      have hfind := hmeta _ hmem
      obtain ⟨pr, hpr⟩ := Option.isSome_iff_exists.1 hfind
      have hdict : dictIndex st.document_metadata
          (st.document_ids.get ⟨idx.toNat, hltn⟩) = .ok pr.2 := by
        rw [dictIndex, hpr]
      have hids : idsOf st ((dist, idx) :: rest) =
          rowId st idx :: idsOf st rest := by
        simp [idsOf, hneg]
      rw [hids]
      show ∃ res,
        (if (idx == -1) = true then retrieveAux st rest
         else do
          let docId ← pyIndex st.document_ids idx
          let metadata ← dictIndex st.document_metadata docId
          let doc? := st.documents.find? (fun d => d.id == docId)
          let tail ← retrieveAux st rest
          match doc? with
          | some d =>
              .ok ({ id := docId, score := 1 / (1 + dist), content := d.content,
                     metadata := metadata, type := d.type } :: tail)
          | none => .ok tail) = .ok res ∧
        (res.map RDoc.id).Sublist (rowId st idx :: idsOf st rest)
      rw [if_neg (by simp [hne])]
      show ∃ res, (pyIndex st.document_ids idx >>= _) = .ok res ∧ _
      rw [hget]
      rw [show ∀ (v : String) (f : String → Except PErr (List RDoc)),
            ((Except.ok v : Except PErr String) >>= f) = f v from fun _ _ => rfl]
      rw [hdict]
      rw [show ∀ (v : Metadata) (f : Metadata → Except PErr (List RDoc)),
            ((Except.ok v : Except PErr Metadata) >>= f) = f v from fun _ _ => rfl]
      rw [hres']
      rw [show ∀ (v : List RDoc) (f : List RDoc → Except PErr (List RDoc)),
            ((Except.ok v : Except PErr (List RDoc)) >>= f) = f v from fun _ _ => rfl]
      cases hfd : st.documents.find?
          (fun d => d.id == st.document_ids.get ⟨idx.toNat, hltn⟩) with
      | none =>
          exact ⟨res', rfl, hsub'.trans (List.sublist_cons_self _ _)⟩
      | some d =>
          refine ⟨_, rfl, ?_⟩
          show (st.document_ids.get ⟨idx.toNat, hltn⟩ ::
            List.map RDoc.id res').Sublist (rowId st idx :: idsOf st rest)
          rw [hrow]
          exact List.Sublist.cons₂ _ hsub'

lemma idsOf_length_le (st : Store) (l : List (ℚ × Int)) :
    (idsOf st l).length ≤ l.length := by
  unfold idsOf
  calc (((l.map Prod.snd).filter (fun i => ¬ i == -1)).map (rowId st)).length
      = ((l.map Prod.snd).filter (fun i => ¬ i == -1)).length := by
        rw [List.length_map]
    _ ≤ (l.map Prod.snd).length := List.length_filter_le _ _
    _ = l.length := List.length_map _ _

lemma idsOf_nodup (st : Store) (hids : st.document_ids.Nodup)
    (l : List (ℚ × Int)) (hv : ValidRows st l)
    (hnd : ((l.map Prod.snd).filter (fun i => ¬ i == -1)).Nodup) :
    (idsOf st l).Nodup := by
  unfold idsOf
  refine List.Nodup.map_on ?_ hnd
  intro x hx y hy hxy
  rw [List.mem_filter] at hx hy
  obtain ⟨hxl, hxne⟩ := hx
  obtain ⟨hyl, hyne⟩ := hy
  have hxne2 : x ≠ -1 := by simpa using hxne
  have hyne2 : y ≠ -1 := by simpa using hyne
  obtain ⟨px, hpx, hpx2⟩ := List.mem_map.1 hxl
  obtain ⟨py, hpy, hpy2⟩ := List.mem_map.1 hyl
  have hvx := hv px hpx
  have hvy := hv py hpy
  rw [hpx2] at hvx
  rw [hpy2] at hvy
  have hxr : 0 ≤ x ∧ x < (st.document_ids.length : Int) := by
    rcases hvx with h | h
    · exact absurd h hxne2
    · exact h
  have hyr : 0 ≤ y ∧ y < (st.document_ids.length : Int) := by
    rcases hvy with h | h
    · exact absurd h hyne2
    · exact h
  have hxn : x.toNat < st.document_ids.length := by omega
  have hyn : y.toNat < st.document_ids.length := by omega
  have hgx : rowId st x = st.document_ids.get ⟨x.toNat, hxn⟩ := by
    unfold rowId
    rw [List.get?_eq_get hxn, Option.getD_some]
  have hgy : rowId st y = st.document_ids.get ⟨y.toNat, hyn⟩ := by
    unfold rowId
    rw [List.get?_eq_get hyn, Option.getD_some]
  rw [hgx, hgy] at hxy
  have := (hids.get_inj_iff).1 hxy
  have hnat : x.toNat = y.toNat := by
    simpa using congrArg Fin.val this
  omega

lemma retrieve_documents_ok (r : Retriever) (h : WFRetriever r)
    (q : String) (k : Nat) :
    ∃ res, retrieve_documents r q k = .ok res ∧ res.length ≤ k ∧
      (res.map RDoc.id).Nodup := by
  obtain ⟨⟨hids, hmeta⟩, hsearch⟩ := h
  obtain ⟨hlen, hvalid, hnd⟩ := hsearch q k
  obtain ⟨res, hres, hsub⟩ := retrieveAux_ok r.store hmeta _ hvalid
  refine ⟨res, hres, ?_, hsub.nodup (idsOf_nodup _ hids _ hvalid hnd)⟩
  have h1 : res.length ≤ (idsOf r.store (r.indexSearch q k)).length := by
    have := hsub.length_le
    simpa using this
  exact h1.trans ((idsOf_length_le _ _).trans hlen)

/-! ## Claim C2: no size-consistency check, no IndexUnavailable -/

def mdA : Metadata := [("name", "A")]

def stInc : Store :=
  { document_ids := ["a", "b"],
    document_metadata := [("a", mdA), ("b", mdA)],
    documents := [{ id := "a", type := "restaurant", content := "ca",
                    metadata := mdA }] }

def rInc : Retriever :=
  { store := stInc,
    indexSearch := fun _ k => ([((0 : ℚ), (0 : Int)), (0, 1)].take k) }

/-- C2 counterexample: a store whose loaded index refers to two ids
while the document set holds only one — inconsistent in size — yet the
search returns `ok` (the unmatched id is silently skipped) instead of
failing with any error. -/
theorem C2_counterexample :
    rInc.store.document_ids.length = 2 ∧
    rInc.store.documents.length = 1 ∧
    retrieve_documents rInc ("q") 2 =
      .ok [{ id := "a", score := 1 / (1 + 0), content := "ca",
             metadata := mdA, type := "restaurant" }] := by
  refine ⟨rfl, rfl, ?_⟩
  rfl

/-- C2 (amended): `retrieve_documents` performs no size-consistency
check and defines no IndexUnavailable error.  Whenever every search row
is valid and every indexed id has metadata, retrieval succeeds — even
when the document set is inconsistent in size with the index, ids
without a document record being silently skipped; a search row beyond
the id list raises a plain IndexError instead. -/
theorem C2_search_error_behaviour :
    (∀ r : Retriever, ∀ q : String, ∀ k : Nat,
      (∀ s ∈ r.store.document_ids,
        (r.store.document_metadata.find? (fun p => p.1 == s)).isSome = true) →
      ValidRows r.store (r.indexSearch q k) →
      ∃ res, retrieve_documents r q k = .ok res) ∧
    (∀ st : Store, ∀ dist : ℚ, ∀ idx : Int,
      (st.document_ids.length : Int) ≤ idx →
      retrieveAux st [(dist, idx)] = .error .indexError) := by
  constructor
  · intro r q k hmeta hvalid
    obtain ⟨res, hres, _⟩ := retrieveAux_ok r.store hmeta _ hvalid
    exact ⟨res, hres⟩
  · intro st dist idx hidx
    have hge : (0 : Int) ≤ (st.document_ids.length : Int) := by positivity
    have hne : (idx == -1) = false := by
      have : idx ≠ -1 := by omega
      simp [this]
    show (if (idx == -1) = true then retrieveAux st []
      else do
        let docId ← pyIndex st.document_ids idx
        let metadata ← dictIndex st.document_metadata docId
        let doc? := st.documents.find? (fun d => d.id == docId)
        let tail ← retrieveAux st []
        match doc? with
        | some d =>
            .ok ({ id := docId, score := 1 / (1 + dist), content := d.content,
                   metadata := metadata, type := d.type } :: tail)
        | none => .ok tail) = .error .indexError
    rw [if_neg (by simp [hne])]
    have hpy : pyIndex st.document_ids idx = .error .indexError := by
      have hnn : ¬ idx < 0 := by omega
      simp only [pyIndex, hnn, if_false]
      rw [dif_neg (by omega)]
    rw [hpy]
    rfl

/-- C2 witness: the general success statement applied to the concrete
inconsistent store, and the IndexError statement applied at row 5 of a
2-id store. -/
theorem C2_search_error_behaviour_witness :
    (∃ res, retrieve_documents rInc ("q") 2 = .ok res) ∧
    retrieveAux stInc [((0 : ℚ), (5 : Int))] = .error .indexError := by
  constructor
  · refine C2_search_error_behaviour.1 rInc ("q") 2 (by decide) ?_
    unfold ValidRows
    decide
  · exact C2_search_error_behaviour.2 stInc 0 5 (by decide)

/-! ## Claim C3: behaviour on documents with missing metadata fields -/

def exceptEqDec {ε α : Type} [DecidableEq ε] [DecidableEq α] :
    DecidableEq (Except ε α) := fun x y =>
  match x, y with
  | .ok a, .ok b =>
      match decEq a b with
      | isTrue h => isTrue (by rw [h])
      | isFalse h => isFalse (by intro hc; injection hc with h2; exact h h2)
  | .error a, .error b =>
      match decEq a b with
      | isTrue h => isTrue (by rw [h])
      | isFalse h => isFalse (by intro hc; injection hc with h2; exact h h2)
  | .ok _, .error _ => isFalse (by intro hc; exact Except.noConfusion hc)
  | .error _, .ok _ => isFalse (by intro hc; exact Except.noConfusion hc)

instance {ε α : Type} [DecidableEq ε] [DecidableEq α] :
    DecidableEq (Except ε α) := exceptEqDec

def badR : RDoc :=
  { id := "x", score := 1, content := "", metadata := [],
    type := "restaurant" }

/-- C3 counterexample: a `restaurant` document whose metadata lacks the
`name` field makes both the prompt rendering and the
`search_by_restaurant` filter raise `KeyError` — the operations do not
degrade gracefully on every missing field. -/
theorem C3_counterexample :
    badR.metadata = [] ∧
    format_documents_for_prompt [badR] = .error .keyError ∧
    exceptFilter (restMatch ("Some Place")) [badR] = .error .keyError :=
  ⟨rfl, rfl, rfl⟩

/-- The fields the rendering and filtering code reads unconditionally:
a restaurant document needs `name` (and `city`/`state` as soon as
`address` is truthy), a menu-item document needs `restaurant` and
`name`. -/
def renderWF (d : RDoc) : Prop :=
  (d.type = "restaurant" →
    (mget d.metadata ("name")).isSome = true ∧
    (mtruthy d.metadata ("address") = true →
      (mget d.metadata ("city")).isSome = true ∧
      (mget d.metadata ("state")).isSome = true)) ∧
  (d.type = "menu_item" →
    (mget d.metadata ("restaurant")).isSome = true ∧
    (mget d.metadata ("name")).isSome = true)

lemma mIndex_ok_of_isSome {m : Metadata} {k : String}
    (h : (mget m k).isSome = true) : ∃ v, mIndex m k = .ok v := by
  obtain ⟨v, hv⟩ := Option.isSome_iff_exists.1 h
  exact ⟨v, by simp [mIndex, hv]⟩

lemma mIndex_ok_of_mtruthy {m : Metadata} {k : String}
    (h : mtruthy m k = true) : ∃ v, mIndex m k = .ok v := by
  unfold mtruthy at h
  cases hm : mget m k with
  | none => rw [hm] at h; exact absurd h (by simp)
  | some v => exact ⟨v, by simp [mIndex, hm]⟩

lemma renderDoc_ok (d : RDoc) (h : renderWF d) :
    ∃ ls, renderDoc d = .ok ls := by
  obtain ⟨hr, hm⟩ := h
  unfold renderDoc
  by_cases ht : d.type = "restaurant"
  · obtain ⟨hname, haddr⟩ := hr ht
    obtain ⟨n, hn⟩ := mIndex_ok_of_isSome hname
    rw [if_pos (by simp [ht])]
    unfold renderRestaurant
    rw [hn]
    rw [show ∀ (v : String) (f : String → Except PErr (List String)),
          ((Except.ok v : Except PErr String) >>= f) = f v from fun _ _ => rfl]
    by_cases ha : mtruthy d.metadata ("address") = true
    · obtain ⟨hc, hs⟩ := haddr ha
      obtain ⟨av, hav⟩ := mIndex_ok_of_mtruthy ha
      obtain ⟨cv, hcv⟩ := mIndex_ok_of_isSome hc
      obtain ⟨sv, hsv⟩ := mIndex_ok_of_isSome hs
      rw [if_pos ha, hav]
      rw [show ∀ (v : String) (f : String → Except PErr (List String)),
            ((Except.ok v : Except PErr String) >>= f) = f v from fun _ _ => rfl]
      rw [hcv]
      rw [show ∀ (v : String) (f : String → Except PErr (List String)),
            ((Except.ok v : Except PErr String) >>= f) = f v from fun _ _ => rfl]
      rw [hsv]
      exact ⟨_, rfl⟩
    · rw [if_neg ha]
      exact ⟨_, rfl⟩
  · rw [if_neg (by simp [ht])]
    by_cases ht2 : d.type = "menu_item"
    · obtain ⟨hrest, hname⟩ := hm ht2
      obtain ⟨rv, hrv⟩ := mIndex_ok_of_isSome hrest
      obtain ⟨nv, hnv⟩ := mIndex_ok_of_isSome hname
      rw [if_pos (by simp [ht2])]
      unfold renderMenuItem
      rw [hrv]
      rw [show ∀ (v : String) (f : String → Except PErr (List String)),
            ((Except.ok v : Except PErr String) >>= f) = f v from fun _ _ => rfl]
      rw [hnv]
      exact ⟨_, rfl⟩
    · rw [if_neg (by simp [ht2])]
      exact ⟨[], rfl⟩

lemma exceptMapM_ok {α β : Type} (f : α → Except PErr β) :
    ∀ l : List α, (∀ a ∈ l, ∃ b, f a = .ok b) →
      ∃ bs, l.mapM f = .ok bs := by
  intro l
  induction l with
  | nil => intro _; exact ⟨[], rfl⟩
  | cons a as ih =>
    intro h
    obtain ⟨b, hb⟩ := h a (List.mem_cons_self _ _)
    obtain ⟨bs, hbs⟩ := ih (fun x hx => h x (List.mem_cons_of_mem _ hx))
    refine ⟨b :: bs, ?_⟩
    rw [List.mapM_cons, hb]
    rw [show ∀ (v : β) (g : β → Except PErr (List β)),
          ((Except.ok v : Except PErr β) >>= g) = g v from fun _ _ => rfl]
    rw [hbs]
    rfl

/-- C3 (amended): absent optional fields are omitted gracefully —
whenever every document carries the identification fields the code
reads unconditionally (`name` for restaurants, plus `city`/`state` when
`address` is truthy; `restaurant` and `name` for menu items), the
whole context rendering succeeds, and a document with only those
required fields renders as exactly its header line; but a document
missing an identification field raises `KeyError` (see the
counterexample), so not every retrieval/rendering operation degrades
gracefully. -/
theorem C3_graceful_rendering :
    (∀ documents : List RDoc, (∀ d ∈ documents, renderWF d) →
      ∃ s, format_documents_for_prompt documents = .ok s) ∧
    (∀ n : String, renderRestaurant [("name", n)] =
      .ok (["Restaurant Information - " ++ n ++ ":", ""])) ∧
    (∀ r n : String, renderMenuItem [("restaurant", r), ("name", n)] =
      .ok (["Menu Item - " ++ r ++ " - " ++ n ++ ":", ""])) := by
  refine ⟨?_, fun n => rfl, fun r n => rfl⟩
  intro documents h
  unfold format_documents_for_prompt
  by_cases he : documents.isEmpty
  · rw [if_pos he]
    exact ⟨_, rfl⟩
  · rw [if_neg he]
    have hmem : ∀ d ∈ sort_documents documents, renderWF d := by
      intro d hd
      exact h d ((pySorted_perm docKeyLe documents).mem_iff.1 hd)
    obtain ⟨parts, hparts⟩ :=
      exceptMapM_ok renderDoc (sort_documents documents)
        (fun d hd => renderDoc_ok d (hmem d hd))
    refine ⟨"\n".intercalate parts.flatten, ?_⟩
    show (do
      let parts ← List.mapM renderDoc (sort_documents documents)
      Except.ok ("\n".intercalate parts.flatten)) =
        (Except.ok ("\n".intercalate parts.flatten) : Except PErr String)
    rw [hparts]
    rfl

/-- C3 witness: the graceful part applied to a one-document list whose
restaurant document has only its `name` field. -/
theorem C3_graceful_rendering_witness :
    ∃ s, format_documents_for_prompt [rTie] = .ok s := by
  refine C3_graceful_rendering.1 [rTie] ?_
  intro d hd
  rw [List.mem_singleton] at hd
  subst hd
  unfold renderWF
  refine ⟨fun _ => ⟨by decide, fun hadr => absurd hadr (by decide)⟩,
    fun hmi => absurd hmi (by decide)⟩

/-! ## Claim C5: fallback-retrieval properties -/

/-- C5: for every well-formed retriever, query and count,
`retrieve_with_fallback(q, k)` succeeds, returns at most `k` results
with pairwise distinct ids, starts with exactly the results of
`retrieve_documents(q, k)` in their original order (supplemental
results appended after them), and never returns fewer results than
`retrieve_documents(q, k)` — in particular also whenever supplemental
non-stopword terms exist. -/
theorem C5_retrieve_with_fallback_props (r : Retriever) (h : WFRetriever r)
    (q : String) (k : Nat) :
    ∃ base fb, retrieve_documents r q k = .ok base ∧
      retrieve_with_fallback r q k = .ok fb ∧
      fb.length ≤ k ∧ (fb.map RDoc.id).Nodup ∧
      (∃ t, fb = base ++ t) ∧ base.length ≤ fb.length := by
  obtain ⟨base, hbase, hblen, hbnd⟩ := retrieve_documents_ok r h q k
  have hstep : retrieve_with_fallback r q k =
      (if base.length < k then
        (fallbackExtend r q k base >>=
          fun y => (pure (y.take k) : Except PErr (List RDoc)))
      else pure (base.take k)) := by
    unfold retrieve_with_fallback
    rw [hbase]
    show (if base.length < k then
        (fallbackExtend r q k base >>=
          fun y => (pure (y.take k) : Except PErr (List RDoc)))
      else (pure base >>= fun y => (pure (y.take k) : Except PErr (List RDoc)))) = _
    by_cases hlt : base.length < k
    · rw [if_pos hlt, if_pos hlt]
    · rw [if_neg hlt, if_neg hlt]
      rfl
  have htake : base.take k = base := List.take_of_length_le hblen
  by_cases hlt : base.length < k
  · rw [if_pos hlt] at hstep
    have hfe : fallbackExtend r q k base =
        (if ((pySplit (pyLower q)).filter
            (fun t => ¬ stopwords.contains t)).isEmpty then
          (pure base : Except PErr (List RDoc))
        else do
          let additional_results ← retrieve_documents r
            (String.intercalate (" ")
              ((pySplit (pyLower q)).filter
                (fun t => ¬ stopwords.contains t)))
            (k - base.length)
          pure (base ++ additional_results.filter
            (fun d => ¬ (base.map (fun d => d.id)).contains d.id))) := rfl
    by_cases hkt : ((pySplit (pyLower q)).filter
        (fun t => ¬ stopwords.contains t)).isEmpty
    · rw [hfe, if_pos hkt] at hstep
      have hfb : retrieve_with_fallback r q k = .ok base := by
        rw [hstep]; show Except.ok (base.take k) = _; rw [htake]
      exact ⟨base, base, hbase, hfb, hblen, hbnd, ⟨[], by simp⟩, le_refl _⟩
    · rw [hfe, if_neg hkt] at hstep
      obtain ⟨add, hadd, _, hand⟩ := retrieve_documents_ok r h
        (String.intercalate (" ")
          ((pySplit (pyLower q)).filter (fun t => ¬ stopwords.contains t)))
        (k - base.length)
      rw [hadd] at hstep
      set P : RDoc → Bool :=
        (fun d => ¬ (base.map (fun d => d.id)).contains d.id) with hP
      have hfb : retrieve_with_fallback r q k =
          .ok ((base ++ add.filter P).take k) := by
        rw [hstep]; rfl
      set extra := add.filter P with hextra
      have hsplit : (base ++ extra).take k =
          base ++ extra.take (k - base.length) := by
        rw [List.take_append_eq_append_take, htake]
      refine ⟨base, (base ++ extra).take k, hbase, hfb,
        List.length_take_le _ _, ?_, ?_, ?_⟩
      · have hnd2 : ((base ++ extra).map RDoc.id).Nodup := by
          rw [List.map_append, List.nodup_append]
          refine ⟨hbnd, ((List.filter_sublist add).map RDoc.id).nodup hand, ?_⟩
          intro a ha hae
          obtain ⟨d, hd, hda⟩ := List.mem_map.1 hae
          have hdp := (List.mem_filter.1 hd).2
          rw [hP] at hdp
          have hnc : ¬ ((base.map (fun d => d.id)).contains d.id = true) := by
            simpa using hdp
          exact hnc (List.elem_iff.2 (by rw [hda]; exact ha))
        exact ((List.take_sublist _ _).map RDoc.id).nodup hnd2
      · exact ⟨extra.take (k - base.length), hsplit⟩
      · rw [hsplit, List.length_append]
        exact Nat.le_add_right _ _
  · rw [if_neg hlt] at hstep
    have hfb : retrieve_with_fallback r q k = .ok base := by
      rw [hstep, htake]
      rfl
    exact ⟨base, base, hbase, hfb, hblen, hbnd, ⟨[], by simp⟩, le_refl _⟩

/-- The empty retriever: an empty, trivially well-formed store. -/
def rEmpty : Retriever :=
  { store := { document_ids := [], document_metadata := [], documents := [] },
    indexSearch := fun _ _ => [] }

lemma rEmpty_wf : WFRetriever rEmpty := by
  refine ⟨⟨List.nodup_nil, ?_⟩, ?_⟩
  · intro s hs
    exact absurd hs (List.not_mem_nil s)
  · intro q k
    exact ⟨Nat.zero_le k, fun p hp => absurd hp (List.not_mem_nil p),
      List.nodup_nil⟩

/-- C5 witness: the fallback properties instantiated at a concrete
well-formed retriever, query and count. -/
theorem C5_retrieve_with_fallback_props_witness :
    ∃ base fb, retrieve_documents rEmpty ("pizza") 3 = .ok base ∧
      retrieve_with_fallback rEmpty ("pizza") 3 = .ok fb ∧
      fb.length ≤ 3 ∧ (fb.map RDoc.id).Nodup ∧
      (∃ t, fb = base ++ t) ∧ base.length ≤ fb.length :=
  C5_retrieve_with_fallback_props rEmpty rEmpty_wf ("pizza") 3

/-! ## Claims C6 and C7: filtered specialized searches -/

lemma exceptFilter_ok {α : Type} (p : α → Except PErr Bool) :
    ∀ l : List α, (∀ a ∈ l, ∃ b, p a = .ok b) →
      ∃ res, exceptFilter p l = .ok res ∧
        (∀ a ∈ res, a ∈ l ∧ p a = .ok true) ∧
        ((∀ a ∈ l, p a = .ok false) → res = []) := by
  intro l
  induction l with
  | nil => intro _; exact ⟨[], rfl, by simp, fun _ => rfl⟩
  | cons a as ih =>
    intro h
    obtain ⟨b, hb⟩ := h a (List.mem_cons_self _ _)
    obtain ⟨res', hres', hmem', hemp'⟩ :=
      ih (fun x hx => h x (List.mem_cons_of_mem _ hx))
    have hstep : exceptFilter p (a :: as) =
        .ok (if b then a :: res' else res') := by
      show (do
        let b ← p a
        let rest ← exceptFilter p as
        Except.ok (if b then a :: rest else rest)) = _
      rw [hb]
      rw [show ∀ (v : Bool) (f : Bool → Except PErr (List α)),
            ((Except.ok v : Except PErr Bool) >>= f) = f v from fun _ _ => rfl]
      rw [hres']
      rfl
    cases b with
    | true =>
      rw [if_pos rfl] at hstep
      refine ⟨a :: res', hstep, ?_, ?_⟩
      · intro x hx
        rcases List.mem_cons.1 hx with rfl | hx2
        · exact ⟨List.mem_cons_self _ _, hb⟩
        · obtain ⟨h1, h2⟩ := hmem' x hx2
          exact ⟨List.mem_cons_of_mem _ h1, h2⟩
      · intro hall
        have := hall a (List.mem_cons_self _ _)
        rw [hb] at this
        exact absurd this (by simp)
    | false =>
      rw [if_neg (by simp)] at hstep
      refine ⟨res', hstep, ?_, ?_⟩
      · intro x hx
        obtain ⟨h1, h2⟩ := hmem' x hx
        exact ⟨List.mem_cons_of_mem _ h1, h2⟩
      · intro hall
        exact hemp' (fun x hx => hall x (List.mem_cons_of_mem _ hx))

lemma restMatch_true {name : String} {d : RDoc}
    (h : restMatch name d = .ok true) :
    (d.type = "restaurant" ∧ ∃ v, mget d.metadata ("name") = some v ∧
      pyLower v = pyLower name) ∨
    (d.type = "menu_item" ∧ ∃ v, mget d.metadata ("restaurant") = some v ∧
      pyLower v = pyLower name) := by
  unfold restMatch at h
  by_cases h1 : d.type == "restaurant"
  · rw [if_pos h1] at h
    cases hm : mget d.metadata ("name") with
    | none =>
      rw [show mIndex d.metadata ("name") = .error .keyError from by
        simp [mIndex, hm]] at h
      exact absurd h (fun hc => Except.noConfusion hc)
    | some v =>
      rw [show mIndex d.metadata ("name") = .ok v from by
        simp [mIndex, hm]] at h
      have h2 : Except.ok (pyLower v == pyLower name) =
          (Except.ok true : Except PErr Bool) := h
      have h3 : (pyLower v == pyLower name) = true := by
        injection h2
      exact Or.inl ⟨by simpa using h1, v, rfl, by simpa using h3⟩

  · rw [if_neg h1] at h
    by_cases h2 : d.type == "menu_item"
    · rw [if_pos h2] at h
      cases hm : mget d.metadata ("restaurant") with
      | none =>
        rw [show mIndex d.metadata ("restaurant") = .error .keyError from by
          simp [mIndex, hm]] at h
        exact absurd h (fun hc => Except.noConfusion hc)
      | some v =>
        rw [show mIndex d.metadata ("restaurant") = .ok v from by
          simp [mIndex, hm]] at h
        have h3 : Except.ok (pyLower v == pyLower name) =
            (Except.ok true : Except PErr Bool) := h
        have h4 : (pyLower v == pyLower name) = true := by
          injection h3
        exact Or.inr ⟨by simpa using h2, v, rfl, by simpa using h4⟩
    · rw [if_neg h2] at h
      exact absurd h (by simp)

/-- C6: every document returned by `search_by_restaurant(name, top_k)`
is either a `restaurant` document whose metadata name equals `name`
case-insensitively or a `menu_item` document whose `restaurant` field
equals `name` case-insensitively, and when no candidate matches the
result is the empty list, not an error. -/
theorem C6_search_by_restaurant_props (r : Retriever) (name : String)
    (k : Nat) (base : List RDoc)
    (hret : retrieve_documents r
      ("Information about restaurant " ++ name) k = .ok base)
    (hwf : ∀ d ∈ base, ∃ b, restMatch name d = .ok b) :
    ∃ res, search_by_restaurant r name k = .ok res ∧
      (∀ d ∈ res,
        (d.type = "restaurant" ∧ ∃ v, mget d.metadata ("name") = some v ∧
          pyLower v = pyLower name) ∨
        (d.type = "menu_item" ∧ ∃ v, mget d.metadata ("restaurant") = some v ∧
          pyLower v = pyLower name)) ∧
      ((∀ d ∈ base, restMatch name d = .ok false) → res = []) := by
  obtain ⟨res, hres, hmem, hemp⟩ := exceptFilter_ok (restMatch name) base hwf
  have hsearch : search_by_restaurant r name k = .ok res := by
    show (do
      let results ← retrieve_documents r
        ("Information about restaurant " ++ name) k
      exceptFilter (restMatch name) results) = .ok res
    rw [hret]
    exact hres
  exact ⟨res, hsearch, fun d hd => restMatch_true (hmem d hd).2, hemp⟩

def mdR0 : Metadata :=
  [("name", "Burger Joint"), ("address", "1 Main St"),
   ("city", "Springfield"), ("state", "IL"), ("phone", "555"),
   ("hours", "9-5"), ("special_features", "patio")]

def mdM0 : Metadata :=
  [("restaurant", "Burger Joint"), ("name", "Veggie Burger"),
   ("price", "$9"), ("dietary_info", "Vegetarian, Vegan")]

def st0 : Store :=
  { document_ids := ["restaurant_0", "menu_0"],
    document_metadata := [("restaurant_0", mdR0), ("menu_0", mdM0)],
    documents :=
      [{ id := "restaurant_0", type := "restaurant", content := "r",
         metadata := mdR0 },
       { id := "menu_0", type := "menu_item", content := "m",
         metadata := mdM0 }] }

def r0 : Retriever :=
  { store := st0,
    indexSearch := fun _ k => ([((1 : ℚ), (0 : Int)), ((3 : ℚ), 1)].take k) }

/-- The concrete result list `retrieve_documents r0 _ _` produces when
both rows are returned. -/
def base0 : List RDoc :=
  [{ id := "restaurant_0", score := 1 / (1 + 1), content := "r",
     metadata := mdR0, type := "restaurant" },
   { id := "menu_0", score := 1 / (1 + 3), content := "m",
     metadata := mdM0, type := "menu_item" }]

/-- C6 witness: the property applied at a concrete store in which both
a restaurant document and one of its menu items are retrieved. -/
theorem C6_search_by_restaurant_props_witness :
    ∃ res, search_by_restaurant r0 ("burger JOINT") 10 = .ok res ∧
      (∀ d ∈ res,
        (d.type = "restaurant" ∧ ∃ v, mget d.metadata ("name") = some v ∧
          pyLower v = pyLower ("burger JOINT")) ∨
        (d.type = "menu_item" ∧
          ∃ v, mget d.metadata ("restaurant") = some v ∧
          pyLower v = pyLower ("burger JOINT"))) ∧
      ((∀ d ∈ base0, restMatch ("burger JOINT") d = .ok false) → res = []) := by
  refine C6_search_by_restaurant_props r0 ("burger JOINT") 10 base0 rfl ?_
  intro d hd
  rcases List.mem_cons.1 hd with rfl | hd2
  · exact ⟨true, by decide⟩
  · rcases List.mem_cons.1 hd2 with rfl | hd3
    · exact ⟨true, by decide⟩
    · exact absurd hd3 (List.not_mem_nil _)

/-- C7: `search_dietary_options(preference, top_k)` retrieves `3*top_k`
candidates through the generic search, and returns at most `top_k`
results, each a `menu_item` document whose `dietary_info` metadata
contains the preference as a case-insensitive substring. -/
theorem C7_search_dietary_props (r : Retriever) (pref : String) (k : Nat)
    (base : List RDoc)
    (hret : retrieve_documents r
      ("Menu items with " ++ pref ++ " dietary preference") (k * 3) =
        .ok base) :
    search_dietary_options r pref k =
      .ok ((base.filter (dietMatch pref)).take k) ∧
    ((base.filter (dietMatch pref)).take k).length ≤ k ∧
    ∀ d ∈ (base.filter (dietMatch pref)).take k,
      d.type = "menu_item" ∧ ∃ v, mget d.metadata ("dietary_info") = some v ∧
        containsSub (pyLower v) (pyLower pref) = true := by
  refine ⟨?_, List.length_take_le _ _, ?_⟩
  · show (do
      let results ← retrieve_documents r
        ("Menu items with " ++ pref ++ " dietary preference") (k * 3)
      Except.ok ((results.filter (dietMatch pref)).take k)) = _
    rw [hret]
    rfl
  · intro d hd
    have hdf : d ∈ base.filter (dietMatch pref) :=
      (List.take_sublist _ _).mem hd
    have hdm : dietMatch pref d = true := (List.mem_filter.1 hdf).2
    unfold dietMatch at hdm
    rw [Bool.and_eq_true] at hdm
    obtain ⟨ht, hinfo⟩ := hdm
    refine ⟨by simpa using ht, ?_⟩
    cases hm : mget d.metadata ("dietary_info") with
    | none => rw [hm] at hinfo; exact absurd hinfo (by simp)
    | some v =>
      rw [hm] at hinfo
      exact ⟨v, rfl, hinfo⟩

/-- C7 witness: the dietary search applied at the concrete store; the
single vegan menu item is the only result. -/
theorem C7_search_dietary_props_witness :
    search_dietary_options r0 ("vegan") 10 =
      .ok ((base0.filter (dietMatch ("vegan"))).take 10) ∧
    ((base0.filter (dietMatch ("vegan"))).take 10).length ≤ 10 ∧
    ∀ d ∈ (base0.filter (dietMatch ("vegan"))).take 10,
      d.type = "menu_item" ∧
      ∃ v, mget d.metadata ("dietary_info") = some v ∧
        containsSub (pyLower v) (pyLower ("vegan")) = true :=
  C7_search_dietary_props r0 ("vegan") 10 base0 rfl

/-! ## Claim C8: intent-classification priority order -/

lemma detectIntentRest_ne_comparison {docs : List Doc} {q lq : String}
    {i : Intent} (h : detectIntentRest docs q lq = .ok i) :
    ∀ ns, i ≠ .comparison ns := by
  unfold detectIntentRest at h
  cases hd : firstDietary lq with
  | some t =>
    rw [hd] at h
    injection h with h2
    subst h2
    intro ns hc
    exact Intent.noConfusion hc
  | none =>
    rw [hd] at h
    by_cases hm : hasMenuKeyword lq = true
    · rw [if_pos hm] at h
      injection h with h2
      subst h2
      intro ns hc
      exact Intent.noConfusion hc
    · rw [if_neg hm] at h
      by_cases hr : hasRestaurantKeyword lq = true
      · rw [if_pos hr] at h
        cases hf : findRestaurantInfo lq docs with
        | error e =>
          rw [hf] at h
          exact absurd h (fun hc => Except.noConfusion hc)
        | ok o =>
          rw [hf] at h
          cases o with
          | some n =>
            injection h with h2
            subst h2
            intro ns hc
            exact Intent.noConfusion hc
          | none =>
            injection h with h2
            subst h2
            intro ns hc
            exact Intent.noConfusion hc
      · rw [if_neg hr] at h
        injection h with h2
        subst h2
        intro ns hc
        exact Intent.noConfusion hc

/-- C8: the intent classifier lower-cases the query and tests the rules
in the fixed order Comparison, Dietary, MenuItem, RestaurantInfo,
Generic, the first matching rule winning: a query is classified
Comparison exactly when a comparison keyword is present and at least
two restaurant names are extracted; with a keyword but fewer than two
names (or with no keyword) classification continues with the later
rules, which fire in their stated order on the lower-cased query. -/
theorem C8_intent_priority (docs : List Doc) (query : String) :
    (∀ ns, detect_intent docs query = .ok (.comparison ns) ↔
      (hasComparisonKeyword (pyLower query) = true ∧
       extractComparisonNames docs (pyLower query) = .ok ns ∧
       2 ≤ ns.length)) ∧
    (hasComparisonKeyword (pyLower query) = false →
      detect_intent docs query =
        detectIntentRest docs query (pyLower query)) ∧
    (∀ ns, hasComparisonKeyword (pyLower query) = true →
      extractComparisonNames docs (pyLower query) = .ok ns →
      ns.length < 2 →
      detect_intent docs query =
        detectIntentRest docs query (pyLower query)) ∧
    (∀ t, firstDietary (pyLower query) = some t →
      detectIntentRest docs query (pyLower query) = .ok (.dietary t)) ∧
    (firstDietary (pyLower query) = none →
      hasMenuKeyword (pyLower query) = true →
      detectIntentRest docs query (pyLower query) = .ok (.menu_item query)) ∧
    (firstDietary (pyLower query) = none →
      hasMenuKeyword (pyLower query) = false →
      hasRestaurantKeyword (pyLower query) = true →
      ∀ n, findRestaurantInfo (pyLower query) docs = .ok (some n) →
      detectIntentRest docs query (pyLower query) =
        .ok (.restaurant_info n)) ∧
    (firstDietary (pyLower query) = none →
      hasMenuKeyword (pyLower query) = false →
      (hasRestaurantKeyword (pyLower query) = false ∨
        findRestaurantInfo (pyLower query) docs = .ok none) →
      detectIntentRest docs query (pyLower query) = .ok (.generic query)) := by
  refine ⟨?_, ?_, ?_, ?_, ?_, ?_, ?_⟩
  · intro ns
    constructor
    · intro h
      unfold detect_intent at h
      by_cases hkw : hasComparisonKeyword (pyLower query) = true
      · rw [if_pos hkw] at h
        cases hex : extractComparisonNames docs (pyLower query) with
        | error e =>
          rw [hex] at h
          exact absurd h (fun hc => Except.noConfusion hc)
        | ok ns2 =>
          rw [hex] at h
          have h1 : (if 2 ≤ ns2.length then
              (Except.ok (Intent.comparison ns2) : Except PErr Intent)
            else detectIntentRest docs query (pyLower query)) =
              .ok (.comparison ns) := h
          by_cases hlen : 2 ≤ ns2.length
          · rw [if_pos hlen] at h1
            injection h1 with h2
            have h3 : ns2 = ns := by
              cases h2
              rfl
            subst h3
            exact ⟨hkw, rfl, hlen⟩
          · rw [if_neg hlen] at h1
            exact absurd rfl (detectIntentRest_ne_comparison h1 ns)
      · rw [if_neg hkw] at h
        exact absurd rfl (detectIntentRest_ne_comparison h ns)
    · rintro ⟨hkw, hex, hlen⟩
      unfold detect_intent
      rw [if_pos hkw, hex]
      show (if 2 ≤ ns.length then
          (Except.ok (Intent.comparison ns) : Except PErr Intent)
        else detectIntentRest docs query (pyLower query)) = _
      rw [if_pos hlen]
  · intro hkw
    unfold detect_intent
    rw [if_neg (by simp [hkw])]
  · intro ns hkw hex hlen
    unfold detect_intent
    rw [if_pos hkw, hex]
    show (if 2 ≤ ns.length then
        (Except.ok (Intent.comparison ns) : Except PErr Intent)
      else detectIntentRest docs query (pyLower query)) = _
    rw [if_neg (by omega)]
  · intro t ht
    unfold detectIntentRest
    rw [ht]
  · intro hd hm
    unfold detectIntentRest
    rw [hd, if_pos hm]
  · intro hd hm hr n hf
    unfold detectIntentRest
    rw [hd, if_neg (by simp [hm]), if_pos hr, hf]
  · intro hd hm hor
    unfold detectIntentRest
    rw [hd, if_neg (by simp [hm])]
    rcases hor with hr | hf
    · rw [if_neg (by simp [hr])]
    · by_cases hr : hasRestaurantKeyword (pyLower query) = true
      · rw [if_pos hr, hf]
      · rw [if_neg hr]

/-- C8 witness: the comparison rule fires on the spec's example query
with exactly the two extracted names, and the dietary rule applied
directly at a dietary query. -/
theorem C8_intent_priority_witness :
    detect_intent st0.documents
      ("Compare the prices between Burger Joint and Taco Haven") =
      .ok (.comparison ["burger joint", "taco haven"]) ∧
    detectIntentRest st0.documents ("any vegan dish?")
      (pyLower ("any vegan dish?")) = .ok (.dietary ("vegan")) := by
  constructor
  · exact ((C8_intent_priority st0.documents
      ("Compare the prices between Burger Joint and Taco Haven")).1
        ["burger joint", "taco haven"]).2 ⟨by decide, by decide, by decide⟩
  · exact (C8_intent_priority st0.documents
      ("any vegan dish?")).2.2.2.1 ("vegan") (by decide)

/-! ## Orchestrator lemmas -/

lemma add_message_retriever (cb : Chatbot) (r c : String) :
    (add_message_to_history cb r c).retriever = cb.retriever := rfl

lemma add_message_generator (cb : Chatbot) (r c : String) :
    (add_message_to_history cb r c).generator = cb.generator := rfl

lemma add_message_history (cb : Chatbot) (r c : String) :
    (add_message_to_history cb r c).chat_history =
      cb.chat_history ++ [{ role := r, content := c }] := rfl

lemma answerFinish_fst (cb1 : Chatbot) (e : Except PErr String) :
    (answerFinish cb1 e).1 = e := by
  cases e <;> rfl

lemma answer_fst_eq (cb : Chatbot) (q : String) :
    (answer cb q).1 =
      answerCore (add_message_to_history cb ("user") q) q
        (add_message_to_history cb ("user") q).chat_history := by
  show (answerFinish (add_message_to_history cb ("user") q)
    (answerCore (add_message_to_history cb ("user") q) q
      (add_message_to_history cb ("user") q).chat_history)).1 = _
  rw [answerFinish_fst]

lemma answer_ok_history (cb : Chatbot) (q resp : String) (cb' : Chatbot)
    (h : answer cb q = (.ok resp, cb')) :
    cb'.chat_history = cb.chat_history ++
      [{ role := "user", content := q },
       { role := "assistant", content := resp }] := by
  have h0 : answerFinish (add_message_to_history cb ("user") q)
      (answerCore (add_message_to_history cb ("user") q) q
        (add_message_to_history cb ("user") q).chat_history) =
      (.ok resp, cb') := h
  cases hc : answerCore (add_message_to_history cb ("user") q) q
      (add_message_to_history cb ("user") q).chat_history with
  | error e =>
    rw [hc] at h0
    have h1 : ((.error e : Except PErr String),
        add_message_to_history cb ("user") q) = (.ok resp, cb') := h0
    have h2 := congrArg Prod.fst h1
    exact absurd h2 (fun hcn => Except.noConfusion hcn)
  | ok r =>
    rw [hc] at h0
    have h1 : ((.ok r : Except PErr String),
        add_message_to_history (add_message_to_history cb ("user") q)
          ("assistant") r) = (.ok resp, cb') := h0
    injection h1 with h2 h3
    injection h2 with h4
    subst h4
    rw [← h3, add_message_history, add_message_history,
      List.append_assoc]
    rfl

/-! ## Claim C9: history is append-only -/

/-- C9: every successful `answer` call appends exactly one user entry
followed by one assistant entry; after a session of `n` successful
calls the history has grown by `2n` (so `2n` from an empty history);
`clear_chat_history` resets the history to length 0. -/
theorem C9_history_append_only :
    (∀ (cb : Chatbot) (q resp : String) (cb' : Chatbot),
      answer cb q = (.ok resp, cb') →
      cb'.chat_history = cb.chat_history ++
        [{ role := "user", content := q },
         { role := "assistant", content := resp }]) ∧
    (∀ (cb : Chatbot) (qs : List String) (cb' : Chatbot),
      runSession cb qs = some cb' →
      cb'.chat_history.length = cb.chat_history.length + 2 * qs.length) ∧
    (∀ cb : Chatbot, (clear_chat_history cb).chat_history = []) := by
  refine ⟨answer_ok_history, ?_, fun cb => rfl⟩
  intro cb qs
  induction qs generalizing cb with
  | nil =>
    intro cb' h
    have h1 : cb = cb' := by
      injection h
    subst h1
    simp
  | cons q qs ih =>
    intro cb' h
    unfold runSession at h
    cases ha : answer cb q with
    | mk res cb1 =>
      rw [ha] at h
      cases res with
      | error e => exact absurd h (fun hc => Option.noConfusion hc)
      | ok r =>
        have hsess : runSession cb1 qs = some cb' := h
        have hlen := ih cb1 cb' hsess
        have hhist := answer_ok_history cb q r cb1 ha
        rw [hlen, hhist]
        simp only [List.length_append, List.length_cons, List.length_nil]
        omega

/-- The chatbot used by the orchestrator witnesses: empty store, a
generator echoing a constant. -/
def cbW : Chatbot :=
  { retriever := rEmpty, generator := { generate := fun _ => "ok" },
    chat_history := [] }

/-- The state `cbW` reaches after the two-query session. -/
def cbW2 : Chatbot :=
  { retriever := rEmpty, generator := { generate := fun _ => "ok" },
    chat_history :=
      [{ role := "user", content := "hi" },
       { role := "assistant", content := "ok" },
       { role := "user", content := "hola" },
       { role := "assistant", content := "ok" }] }

/-- C9 witness: a concrete two-turn session from an empty history ends
with history length 4. -/
theorem C9_history_append_only_witness :
    runSession cbW ["hi", "hola"] = some cbW2 ∧
    cbW2.chat_history.length = cbW.chat_history.length + 2 * 2 :=
  ⟨rfl, C9_history_append_only.2.1 cbW ["hi", "hola"] cbW2 rfl⟩

/-! ## Claim C4: zero-result dispatch in `answer` -/

/-- C4 (amended): with zero retrieved documents, a Dietary or
RestaurantInfo intent yields a templated not-found message without any
generator call; a MenuItem intent retries once with
`retrieve_with_fallback` and then always takes the general generation
path with whatever the fallback returned — even an empty list — never
a dedicated no-results path; a Generic intent uses
`retrieve_with_fallback` as its primary retrieval (no second retry)
and takes the dedicated no-results generation path when it returns
zero documents. -/
theorem C4_zero_result_dispatch (cb : Chatbot) (q pref rest : String)
    (ds : List RDoc) :
    (detect_intent cb.retriever.store.documents q = .ok (.dietary pref) →
      search_dietary_options cb.retriever pref 10 = .ok [] →
      (answer cb q).1 = .ok ("I couldn\x27t find any menu items with " ++
        pref ++ " dietary preference in our database.")) ∧
    (detect_intent cb.retriever.store.documents q =
        .ok (.restaurant_info rest) →
      search_by_restaurant cb.retriever rest 10 = .ok [] →
      (answer cb q).1 = .ok ("I couldn\x27t find information about " ++
        rest ++ " in our database.")) ∧
    (detect_intent cb.retriever.store.documents q = .ok (.menu_item q) →
      search_menu_items cb.retriever q 10 = .ok [] →
      retrieve_with_fallback cb.retriever q 5 = .ok ds →
      (answer cb q).1 = answer_query cb.generator q ds
        (cb.chat_history ++ [{ role := "user", content := q }])) ∧
    (detect_intent cb.retriever.store.documents q = .ok (.generic q) →
      retrieve_with_fallback cb.retriever q 5 = .ok [] →
      (answer cb q).1 = .ok (handle_no_results cb.generator q)) := by
  refine ⟨?_, ?_, ?_, ?_⟩
  · intro hdet hzero
    rw [answer_fst_eq]
    unfold answerCore
    rw [add_message_retriever, hdet]
    show (do
      let documents ← search_dietary_options cb.retriever pref 10
      if documents.isEmpty then
        Except.ok ("I couldn\x27t find any menu items with " ++ pref ++
          " dietary preference in our database.")
      else (answer_query (add_message_to_history cb ("user") q).generator
        q documents
        (add_message_to_history cb ("user") q).chat_history)) = _
    rw [hzero]
    rfl
  · intro hdet hzero
    rw [answer_fst_eq]
    unfold answerCore
    rw [add_message_retriever, hdet]
    show (do
      let documents ← search_by_restaurant cb.retriever rest 10
      if documents.isEmpty then
        Except.ok ("I couldn\x27t find information about " ++ rest ++
          " in our database.")
      else (answer_query (add_message_to_history cb ("user") q).generator
        q documents
        (add_message_to_history cb ("user") q).chat_history)) = _
    rw [hzero]
    rfl
  · intro hdet hzero hfb
    rw [answer_fst_eq]
    unfold answerCore
    rw [add_message_retriever, hdet]
    show (do
      let documents ← search_menu_items cb.retriever q 10
      if documents.isEmpty then do
        let documents ← retrieve_with_fallback cb.retriever q 5
        (answer_query (add_message_to_history cb ("user") q).generator
          q documents
          (add_message_to_history cb ("user") q).chat_history)
      else (answer_query (add_message_to_history cb ("user") q).generator
        q documents
        (add_message_to_history cb ("user") q).chat_history)) = _
    rw [hzero]
    show (do
      let documents ← retrieve_with_fallback cb.retriever q 5
      (answer_query (add_message_to_history cb ("user") q).generator
        q documents
        (add_message_to_history cb ("user") q).chat_history)) = _
    rw [hfb]
    rfl
  · intro hdet hzero
    rw [answer_fst_eq]
    unfold answerCore
    rw [add_message_retriever, hdet]
    show (do
      let documents ← retrieve_with_fallback cb.retriever q 5
      if documents.isEmpty then
        Except.ok (handle_no_results
          (add_message_to_history cb ("user") q).generator q)
      else (answer_query (add_message_to_history cb ("user") q).generator
        q documents
        (add_message_to_history cb ("user") q).chat_history)) = _
    rw [hzero]
    rfl

/-- The chatbot used in the C4 counterexample and witness: empty store
and an identity generator, so the produced answer exposes the prompt
that was generated from. -/
def cbEx : Chatbot :=
  { retriever := rEmpty, generator := { generate := fun s => s },
    chat_history := [] }

/-- C4 counterexample: for the MenuItem query `menu`, both the menu
search and the fallback retrieval return zero documents, yet the
produced answer is the general generation path applied to the empty
document list — not the dedicated no-results generation path, whose
output differs. -/
theorem C4_counterexample :
    detect_intent cbEx.retriever.store.documents ("menu") =
      .ok (.menu_item ("menu")) ∧
    search_menu_items cbEx.retriever ("menu") 10 = .ok [] ∧
    retrieve_with_fallback cbEx.retriever ("menu") 5 = .ok [] ∧
    (answer cbEx ("menu")).1 =
      answer_query cbEx.generator ("menu") []
        [{ role := "user", content := "menu" }] ∧
    (answer cbEx ("menu")).1 ≠
      .ok (handle_no_results cbEx.generator ("menu")) := by
  refine ⟨rfl, rfl, rfl, rfl, ?_⟩
  decide

/-- C4 witness: the dietary branch of the amended statement applied at
a concrete chatbot whose dietary search finds nothing. -/
theorem C4_zero_result_dispatch_witness :
    (answer cbEx ("vegan?")).1 =
      .ok ("I couldn\x27t find any menu items with " ++ "vegan" ++
        " dietary preference in our database.") :=
  (C4_zero_result_dispatch cbEx ("vegan?") ("vegan") ("") []).1 rfl rfl

/-! ## Claim C10: the comparison path does not read the chat history -/

lemma answerCore_comparison (cb : Chatbot) (q : String)
    (names : List String) (hist : List Msg)
    (hdet : detect_intent cb.retriever.store.documents q =
      .ok (.comparison names)) :
    answerCore cb q hist =
      (buildRestaurantDocs cb.retriever names [] >>=
        fun restaurant_docs =>
          generate_comparison cb.generator q restaurant_docs) := by
  unfold answerCore
  rw [hdet]
  rfl

/-- C10: for a query classified as Comparison, the answer is computed
from the query and the per-restaurant retrieved documents only — two
`answer` runs from states sharing the retriever and the generator but
differing arbitrarily in prior chat history produce the identical
result (the appended user message plays no part in the comparison
generation path). -/
theorem C10_comparison_ignores_history (cb1 cb2 : Chatbot) (q : String)
    (names : List String)
    (hr : cb1.retriever = cb2.retriever)
    (hg : cb1.generator = cb2.generator)
    (hdet : detect_intent cb1.retriever.store.documents q =
      .ok (.comparison names)) :
    (answer cb1 q).1 = (answer cb2 q).1 := by
  have hdet2 : detect_intent cb2.retriever.store.documents q =
      .ok (.comparison names) := by
    rw [← hr]
    exact hdet
  rw [answer_fst_eq, answer_fst_eq]
  rw [answerCore_comparison (add_message_to_history cb1 ("user") q) q names _
    (by rw [add_message_retriever]; exact hdet)]
  rw [answerCore_comparison (add_message_to_history cb2 ("user") q) q names _
    (by rw [add_message_retriever]; exact hdet2)]
  rw [add_message_retriever, add_message_retriever,
    add_message_generator, add_message_generator, hr, hg]

/-- The chat state with a non-trivial prior history used by the C10
witness. -/
def cbExHist : Chatbot :=
  { retriever := rEmpty, generator := { generate := fun s => s },
    chat_history :=
      [{ role := "user", content := "earlier question" },
       { role := "assistant", content := "earlier answer" }] }

/-- C10 witness: a comparison query answered from an empty history and
from a two-message history gives the same result. -/
theorem C10_comparison_ignores_history_witness :
    (answer cbEx ("compare between alpha and beta")).1 =
      (answer cbExHist ("compare between alpha and beta")).1 :=
  C10_comparison_ignores_history cbEx cbExHist
    ("compare between alpha and beta") ["alpha", "beta"] rfl rfl rfl
